import Mathlib

/-!
Verification development for the EcoTown health dashboard extraction scripts
(src/scripts/pdf-parser.py and src/scripts/data-extractor.py).

The Python code is shallowly embedded: regular expressions become terms of an
explicit pattern AST with an executable greedy backtracking matcher, floats
become rationals, Python dicts become association lists in insertion order,
and the current calendar date becomes an explicit parameter named today.
-/

namespace EcoTown

/-! ### Characters and strings -/

/-- Lowercasing of a single character, as Python str.lower on ASCII input. -/
def lowChar (c : Char) : Char := c.toLower

/-- Lowercasing of a character list. -/
def lowerL (s : List Char) : List Char := s.map lowChar

/-- ASCII digit test, the regex class d. -/
def isDigitB (c : Char) : Bool := 48 ≤ c.toNat && c.toNat ≤ 57

/-- ASCII whitespace test, the regex class s. -/
def isSpaceB (c : Char) : Bool :=
  c = ' ' || c = '\t' || c = '\n' || c = '\r' || c.toNat = 11 || c.toNat = 12

/-- ASCII word-character test, the regex class w. -/
def isWordB (c : Char) : Bool :=
  isDigitB c || (97 ≤ c.toLower.toNat && c.toLower.toNat ≤ 122) || c = '_'

/-- Numeric value of a list of ASCII digits. -/
def natOfDigits (l : List Char) : Nat := l.foldl (fun a c => a * 10 + (c.toNat - 48)) 0

/-- Value of a captured numeric string of shape digits or digits point digits,
mirroring the Python float conversion of a regex capture. -/
def ratOfNumChars (l : List Char) : ℚ :=
  match l.span (fun c => c ≠ '.') with
  | (ip, []) => (natOfDigits ip : ℚ)
  | (ip, _ :: fp) => (natOfDigits ip : ℚ) + (natOfDigits fp : ℚ) / (10 : ℚ) ^ fp.length

/-- Lexicographic comparison of character lists by code point, the order Python
uses when comparing strings with the less-or-equal operator. -/
def clistLe : List Char → List Char → Bool
  | [], _ => true
  | _ :: _, [] => false
  | a :: as, b :: bs =>
    if a.toNat < b.toNat then true
    else if b.toNat < a.toNat then false
    else clistLe as bs

/-- String comparison by code points. -/
def strLe (a b : String) : Bool := clistLe a.toList b.toList

/-- Decides whether the first list occurs as a contiguous sublist of the second,
mirroring the Python membership test on strings. -/
def containsSub (needle : List Char) : List Char → Bool
  | [] => needle.isPrefixOf []
  | c :: t => needle.isPrefixOf (c :: t) || containsSub needle t

/-! ### Pattern AST and matcher

The regular expressions of the scripts use a small fixed vocabulary: literal
characters, the classes d, s and w, a character set, concatenation,
alternation, optional pieces, a non-capturing optional group, and starred,
plussed or counted character classes.  Matching is case-insensitive, as all
patterns are applied lowercased or with the IGNORECASE flag. -/

/-- Character classes appearing in the patterns of the scripts. -/
inductive CharClass where
  | digit
  | space
  | word
  | anyOf (cs : List Char)
  deriving DecidableEq, Repr

/-- Test of a character against a class, case-insensitively. -/
def chMatch : CharClass → Char → Bool
  | .digit, c => isDigitB c
  | .space, c => isSpaceB c
  | .word, c => isWordB c
  | .anyOf cs, c => cs.contains c.toLower

/-- Pattern AST for the regular expressions of the scripts.  The constructor
ncOpt models an optional non-capturing group, written in the source as an
open-paren question-colon group followed by a question mark; it matches like
opt but is the piece that the table-header loosening rewrites. -/
inductive Reg where
  | eps
  | chr (c : Char)
  | cls (p : CharClass)
  | cat (a b : Reg)
  | alt (a b : Reg)
  | opt (a : Reg)
  | ncOpt (a : Reg)
  | starCl (p : CharClass)
  | plusCl (p : CharClass)
  | rep (p : CharClass) (m n : Nat)
  deriving DecidableEq, Repr

/-- Length of the leading run of characters of the list satisfying the class. -/
def countLeading (p : CharClass) (s : List Char) : Nat :=
  (s.takeWhile (chMatch p)).length

/-- Remainders reachable by consuming between m and n class characters, longest
first, mirroring greedy counted repetition. -/
def repRems (p : CharClass) (m n : Nat) (s : List Char) : List (List Char) :=
  let k := min n (countLeading p s)
  if k < m then []
  else (List.range (k + 1 - m)).map (fun i => s.drop (k - i))

/-- All remainders after matching the pattern against a prefix of the input, in
backtracking priority order: greedy alternatives first, exactly as the Python
regex engine explores them. -/
def matches1 : Reg → List Char → List (List Char)
  | .eps, s => [s]
  | .chr _, [] => []
  | .chr c, c1 :: t => if c1.toLower = c then [t] else []
  | .cls _, [] => []
  | .cls p, c1 :: t => if chMatch p c1 then [t] else []
  | .cat a b, s => (matches1 a s).flatMap (matches1 b)
  | .alt a b, s => matches1 a s ++ matches1 b s
  | .opt a, s => matches1 a s ++ [s]
  | .ncOpt a, s => matches1 a s ++ [s]
  | .starCl p, s => repRems p 0 s.length s
  | .plusCl p, s => repRems p 1 s.length s
  | .rep p m n, s => repRems p m n s

/-- Loosening of a pattern for table-header matching: the source builds the
loosened pattern by deleting the numeric-capture suffix (handled separately
here, see valueCore below) and the open-paren question-colon and close-paren
question-mark marker pairs, which turns every optional non-capturing group into
its now-mandatory body. -/
def loosen : Reg → Reg
  | .ncOpt a => loosen a
  | .cat a b => .cat (loosen a) (loosen b)
  | .alt a b => .alt (loosen a) (loosen b)
  | .opt a => .opt (loosen a)
  | r => r

/-- Literal string pattern. -/
def litR (s : String) : Reg := s.toList.foldr (fun c acc => .cat (.chr c) acc) .eps

/-- Concatenation of a list of patterns. -/
def seqR (l : List Reg) : Reg := l.foldr .cat .eps

/-- Star of the whitespace class. -/
def wsS : Reg := .starCl .space

/-- Plus of the whitespace class. -/
def wsP : Reg := .plusCl .space

/-- Glue between a biomarker name and its numeric value: whitespace star, an
optional colon, whitespace star. -/
def colonGlue : Reg := .cat wsS (.cat (.opt (.chr ':')) wsS)

/-- Greedy capture of the trailing numeric group of a biomarker pattern:
one-or-more digits with an optional fractional part.  Returns the captured
characters when the input starts with a digit. -/
def captureNumber (s : List Char) : Option (List Char) :=
  let ds := s.takeWhile isDigitB
  if ds.isEmpty then none
  else
    match s.drop ds.length with
    | '.' :: r2 =>
      let fs := r2.takeWhile isDigitB
      if fs.isEmpty then some ds else some (ds ++ '.' :: fs)
    | _ => some ds

/-- Leftmost capture of a biomarker pattern on the input: the pattern core is
matched at each start position from the left, and at a given position the
backtracking alternatives are tried in priority order until the trailing
numeric capture succeeds.  This is the first element of the Python findall
result for core followed by the capture group. -/
def findCapture (pre : Reg) : List Char → Option (List Char)
  | [] => (matches1 pre []).findSome? captureNumber
  | c :: t =>
    match (matches1 pre (c :: t)).findSome? captureNumber with
    | some cap => some cap
    | none => findCapture pre t

/-- Leftmost match of a whole pattern: the matched slice of the input, using
the highest-priority backtracking branch at the leftmost matching position. -/
def findMatch (r : Reg) : List Char → Option (List Char)
  | [] =>
    match (matches1 r []).head? with
    | some _ => some []
    | none => none
  | c :: t =>
    match (matches1 r (c :: t)).head? with
    | some rest => some ((c :: t).take ((c :: t).length - rest.length))
    | none => findMatch r t

/-- Search test: true when the pattern matches somewhere in the input. -/
def searchB (r : Reg) (s : List Char) : Bool := (findMatch r s).isSome

/-! ### Pattern registry

Every biomarker pattern of the AdvancedPDFParser ends in the same suffix:
whitespace star, optional colon, whitespace star, then the numeric capture
group.  The registry therefore stores the pattern core, i.e. everything before
that suffix; value matching appends colonGlue and the numeric capture, and
header loosening applies loosen to the core, exactly reproducing the string
surgery of the source. -/

/-- Pattern core of two words joined by whitespace star. -/
def w2 (a b : String) : Reg := seqR [litR a, wsS, litR b]

/-- Pattern core of three words joined by whitespace star. -/
def w3 (a b c : String) : Reg := seqR [litR a, wsS, litR b, wsS, litR c]

/-- Biomarker pattern cores, keyed by biomarker name, in the insertion order of
the source dictionary. -/
def biomarkerPatterns : List (String × List Reg) :=
  [ ("Total Cholesterol",
      [ .cat (.ncOpt (.cat (litR "total") wsP)) (litR "cholesterol"),
        seqR [litR "cholesterol", .opt (.chr ','), wsS, litR "total"],
        litR "chol",
        litR "tc" ]),
    ("LDL",
      [ seqR [litR "ldl", wsS, .ncOpt (litR "cholesterol")],
        w3 "low" "density" "lipoprotein",
        litR "ldl-c",
        seqR [litR "cholesterol", .opt (.chr ','), wsS, litR "ldl"] ]),
    ("HDL",
      [ seqR [litR "hdl", wsS, .ncOpt (litR "cholesterol")],
        w3 "high" "density" "lipoprotein",
        litR "hdl-c",
        seqR [litR "cholesterol", .opt (.chr ','), wsS, litR "hdl"] ]),
    ("Triglycerides",
      [ .cat (litR "triglyceride") (.opt (.chr 's')),
        litR "trig",
        litR "tg",
        .cat (litR "trig") (.opt (.chr 's')) ]),
    ("Glucose",
      [ litR "glucose",
        w2 "blood" "glucose",
        w2 "fasting" "glucose",
        litR "gluc" ]),
    ("HbA1c",
      [ litR "hba1c",
        w2 "hemoglobin" "a1c",
        w2 "glycated" "hemoglobin",
        litR "a1c" ]),
    ("Creatinine",
      [ litR "creatinine",
        w2 "serum" "creatinine",
        litR "creat",
        litR "cr" ]),
    ("BUN",
      [ litR "bun",
        w3 "blood" "urea" "nitrogen",
        w2 "urea" "nitrogen" ]),
    ("eGFR",
      [ litR "egfr",
        w2 "estimated" "gfr",
        seqR [litR "gfr", wsS, .ncOpt (litR "estimated")] ]),
    ("Vitamin D",
      [ seqR [litR "vitamin", wsS, litR "d", wsS, .ncOpt (seqR [litR "25", wsS, litR "oh"])],
        seqR [litR "25", wsS, .ncOpt (litR "oh"), wsS, litR "vitamin", wsS, litR "d"],
        litR "calcidiol",
        w2 "vit" "d" ]),
    ("Vitamin B12",
      [ seqR [.ncOpt (.cat (litR "vitamin") wsS), litR "b", wsS, litR "12"],
        litR "cobalamin",
        litR "cyanocobalamin",
        w2 "vit" "b12" ]),
    ("Folate",
      [ litR "folate",
        w2 "folic" "acid",
        w2 "vitamin" "b9" ]),
    ("Iron",
      [ litR "iron",
        w2 "serum" "iron",
        litR "fe" ]),
    ("Ferritin",
      [ litR "ferritin",
        w2 "serum" "ferritin" ]),
    ("TSH",
      [ litR "tsh",
        w3 "thyroid" "stimulating" "hormone",
        litR "thyrotropin" ]),
    ("T3",
      [ .cat (.ncOpt (.cat (litR "free") wsS)) (litR "t3"),
        litR "triiodothyronine",
        litR "ft3" ]),
    ("T4",
      [ .cat (.ncOpt (.cat (litR "free") wsS)) (litR "t4"),
        litR "thyroxine",
        litR "ft4" ]),
    ("Calcium",
      [ litR "calcium",
        w2 "serum" "calcium",
        litR "ca" ]),
    ("Magnesium",
      [ litR "magnesium",
        w2 "serum" "magnesium",
        litR "mg" ]),
    ("Potassium",
      [ litR "potassium",
        w2 "serum" "potassium",
        litR "k" ]),
    ("Sodium",
      [ litR "sodium",
        w2 "serum" "sodium",
        litR "na" ]) ]

/-- Date extraction patterns, in the order of the source list.  Each source
pattern wraps the whole expression in its single capture group, so the capture
is the matched slice itself. -/
def monthAbbrevs : List String :=
  ["jan", "feb", "mar", "apr", "may", "jun", "jul", "aug", "sep", "oct", "nov", "dec"]

/-- Full month names used by the fifth date pattern. -/
def monthFulls : List String :=
  ["january", "february", "march", "april", "may", "june", "july", "august",
   "september", "october", "november", "december"]

/-- Alternation of a list of literal words. -/
def altWords : List String → Reg
  | [] => .alt .eps .eps
  | [w] => litR w
  | w :: ws => .alt (litR w) (altWords ws)

/-- Separator class of slash or dash. -/
def sepCl : CharClass := .anyOf ['/', '-']

/-- The five date patterns of the source, as pattern ASTs. -/
def datePatterns : List Reg :=
  [ seqR [.rep .digit 1 2, .cls sepCl, .rep .digit 1 2, .cls sepCl, .rep .digit 2 4],
    seqR [.rep .digit 4 4, .cls sepCl, .rep .digit 1 2, .cls sepCl, .rep .digit 1 2],
    seqR [.rep .digit 1 2, wsP, altWords monthAbbrevs, wsP, .rep .digit 2 4],
    seqR [altWords monthAbbrevs, wsP, .rep .digit 1 2, .opt (.chr ','), wsP, .rep .digit 2 4],
    seqR [.rep .digit 1 2, wsP, altWords monthFulls, wsP, .rep .digit 2 4] ]

/-- Clinical reference ranges: biomarker to named buckets with inclusive
bounds, in source iteration order. -/
def clinicalRanges : List (String × List (String × ℚ × ℚ)) :=
  [ ("Total Cholesterol", [("normal", 0, 200), ("borderline", 200, 240), ("high", 240, 999)]),
    ("LDL", [("normal", 0, 100), ("borderline", 100, 160), ("high", 160, 999)]),
    ("HDL", [("low", 0, 40), ("normal", 40, 999)]),
    ("Triglycerides", [("normal", 0, 150), ("borderline", 150, 200), ("high", 200, 999)]),
    ("Glucose", [("normal", 70, 100), ("prediabetic", 100, 126), ("diabetic", 126, 999)]),
    ("HbA1c", [("normal", 0, 5.7), ("prediabetic", 5.7, 6.5), ("diabetic", 6.5, 999)]),
    ("Creatinine", [("normal", 0.6, 1.3), ("high", 1.3, 999)]),
    ("Vitamin D", [("deficient", 0, 20), ("insufficient", 20, 30), ("sufficient", 30, 999)]),
    ("Vitamin B12", [("deficient", 0, 300), ("low", 300, 400), ("normal", 400, 999)]) ]

/-- Plausibility ranges used by value validation, in source order. -/
def validationRanges : List (String × ℚ × ℚ) :=
  [ ("Total Cholesterol", 50, 1000),
    ("LDL", 20, 800),
    ("HDL", 10, 200),
    ("Triglycerides", 20, 2000),
    ("Glucose", 30, 800),
    ("HbA1c", 3.0, 20.0),
    ("Creatinine", 0.1, 20.0),
    ("Vitamin D", 1, 200),
    ("Vitamin B12", 50, 5000),
    ("TSH", 0.01, 100.0),
    ("Iron", 10, 500),
    ("Ferritin", 1, 5000) ]

/-- Unit patterns of the free-text unit extractor: substring key of the
lowercased biomarker name, and the alternation of unit spellings searched in
the text. -/
def unitPatterns : List (String × Reg) :=
  [ ("cholesterol", altWords ["mg/dl", "mmol/l"]),
    ("glucose", altWords ["mg/dl", "mmol/l"]),
    ("creatinine", altWords ["mg/dl", "Î¼mol/l", "umol/l"]),
    ("vitamin d", altWords ["ng/ml", "nmol/l"]),
    ("vitamin b12", altWords ["pg/ml", "pmol/l"]),
    ("hba1c", .alt (litR "%") (litR "mmol/mol")) ]

/-! ### Date parsing

Model of datetime.strptime for the format strings the script tries, using the
field expressions of the CPython strptime implementation: the month field
accepts 1 to 12 written with one or two digits, the day field 1 to 31, the
four-digit year field exactly four digits, the two-digit year field exactly two
digits mapped into 1969 to 2068.  A successfully matched date is validated like
the datetime constructor (day within the month, year at least 1) and rendered
as the zero-padded ISO form produced by strftime. -/

/-- Numeric value of an ASCII digit character. -/
def digVal (c : Char) : Nat := c.toNat - 48

/-- Digit character of a value below ten. -/
def digitChar (n : Nat) : Char := Char.ofNat (48 + n)

/-- Two-digit zero-padded rendering. -/
def pad2 (n : Nat) : String := String.mk [digitChar (n / 10 % 10), digitChar (n % 10)]

/-- Four-digit zero-padded rendering. -/
def pad4 (n : Nat) : String :=
  String.mk [digitChar (n / 1000 % 10), digitChar (n / 100 % 10),
             digitChar (n / 10 % 10), digitChar (n % 10)]

/-- Gregorian leap-year test. -/
def isLeap (y : Nat) : Bool := y % 4 = 0 && (y % 100 ≠ 0 || y % 400 = 0)

/-- Number of days of a month. -/
def daysInMonth (y m : Nat) : Nat :=
  if m = 2 then (if isLeap y then 29 else 28)
  else if m = 4 || m = 6 || m = 9 || m = 11 then 30
  else 31

/-- Validation and ISO rendering of a parsed date, as the datetime constructor
followed by strftime with the year-month-day format. -/
def mkValidDate (y m d : Nat) : Option String :=
  if 1 ≤ y && y ≤ 9999 && 1 ≤ m && m ≤ 12 && 1 ≤ d && d ≤ daysInMonth y m then
    some (pad4 y ++ "-" ++ pad2 m ++ "-" ++ pad2 d)
  else none

/-- Month field of strptime: the alternatives ten to twelve, zero-padded one to
nine, then bare one to nine, in that backtracking priority order. -/
def parseMonthF : List Char → List (Nat × List Char)
  | a :: b :: t =>
    (if a = '1' && isDigitB b && digVal b ≤ 2 then [(10 + digVal b, t)] else []) ++
    (if a = '0' && isDigitB b && 1 ≤ digVal b then [(digVal b, t)] else []) ++
    (if isDigitB a && 1 ≤ digVal a then [(digVal a, b :: t)] else [])
  | [a] => if isDigitB a && 1 ≤ digVal a then [(digVal a, [])] else []
  | [] => []

/-- Day field of strptime: thirty and thirty-one, ten to twenty-nine,
zero-padded one to nine, then bare one to nine. -/
def parseDayF : List Char → List (Nat × List Char)
  | a :: b :: t =>
    (if a = '3' && (b = '0' || b = '1') then [(30 + digVal b, t)] else []) ++
    (if (a = '1' || a = '2') && isDigitB b then [(10 * digVal a + digVal b, t)] else []) ++
    (if a = '0' && isDigitB b && 1 ≤ digVal b then [(digVal b, t)] else []) ++
    (if isDigitB a && 1 ≤ digVal a then [(digVal a, b :: t)] else [])
  | [a] => if isDigitB a && 1 ≤ digVal a then [(digVal a, [])] else []
  | [] => []

/-- Four-digit year field of strptime. -/
def parseYear4F : List Char → List (Nat × List Char)
  | a :: b :: c :: d :: t =>
    if isDigitB a && isDigitB b && isDigitB c && isDigitB d then
      [(digVal a * 1000 + digVal b * 100 + digVal c * 10 + digVal d, t)]
    else []
  | _ => []

/-- Two-digit year field of strptime. -/
def parseYear2F : List Char → List (Nat × List Char)
  | a :: b :: t =>
    if isDigitB a && isDigitB b then [(digVal a * 10 + digVal b, t)] else []
  | _ => []

/-- Century completion of a two-digit year, as the CPython strptime rule. -/
def year2Adjust (y : Nat) : Nat := if y ≤ 68 then y + 2000 else y + 1900

/-- Full-string parse of three fields joined by a fixed separator character,
returning the first backtracking branch that consumes the whole input. -/
def seqParse3 (p1 p2 p3 : List Char → List (Nat × List Char)) (sep : Char)
    (s : List Char) : Option (Nat × Nat × Nat) :=
  ((p1 s).flatMap (fun e1 =>
    match e1.2 with
    | c :: r1 =>
      if c = sep then
        (p2 r1).flatMap (fun e2 =>
          match e2.2 with
          | c2 :: r2 =>
            if c2 = sep then
              (p3 r2).filterMap (fun e3 =>
                if e3.2.isEmpty then some (e1.1, e2.1, e3.1) else none)
            else []
          | [] => [])
      else []
    | [] => [])).head?

/-- The eight numeric formats tried by the script, in order: month-day-year4
with slash and with dash, year4-month-day with slash and with dash,
day-month-year4 with slash and with dash, month-day-year2 with slash and with
dash.  Each format first matches like the strptime regex, then validates the
calendar date. -/
def tryNumericFormats (s : List Char) : Option String :=
  [ (seqParse3 parseMonthF parseDayF parseYear4F '/' s).bind
      (fun v => mkValidDate v.2.2 v.1 v.2.1),
    (seqParse3 parseMonthF parseDayF parseYear4F '-' s).bind
      (fun v => mkValidDate v.2.2 v.1 v.2.1),
    (seqParse3 parseYear4F parseMonthF parseDayF '/' s).bind
      (fun v => mkValidDate v.1 v.2.1 v.2.2),
    (seqParse3 parseYear4F parseMonthF parseDayF '-' s).bind
      (fun v => mkValidDate v.1 v.2.1 v.2.2),
    (seqParse3 parseDayF parseMonthF parseYear4F '/' s).bind
      (fun v => mkValidDate v.2.2 v.2.1 v.1),
    (seqParse3 parseDayF parseMonthF parseYear4F '-' s).bind
      (fun v => mkValidDate v.2.2 v.2.1 v.1),
    (seqParse3 parseMonthF parseDayF parseYear2F '/' s).bind
      (fun v => mkValidDate (year2Adjust v.2.2) v.1 v.2.1),
    (seqParse3 parseMonthF parseDayF parseYear2F '-' s).bind
      (fun v => mkValidDate (year2Adjust v.2.2) v.1 v.2.1) ].findSome? id

/-- Abbreviated month-name field of strptime, case-insensitive. -/
def parseAbbrevMonth (s : List Char) : List (Nat × List Char) :=
  (List.range 12).filterMap (fun i =>
    match monthAbbrevs.get? i with
    | some w =>
      if (lowerL (s.take 3)) = w.toList then some (i + 1, s.drop 3) else none
    | none => none)

/-- One-or-more whitespace, as a space in a strptime format string. -/
def skipWs1 (s : List Char) : Option (List Char) :=
  let ws := s.takeWhile isSpaceB
  if ws.isEmpty then none else some (s.drop ws.length)

/-- The month-name format of abbreviated month, day, comma, year. -/
def parseBdY (s : List Char) : Option String :=
  ((parseAbbrevMonth s).flatMap (fun em =>
    match skipWs1 em.2 with
    | none => []
    | some r1 =>
      (parseDayF r1).flatMap (fun ed =>
        match ed.2 with
        | ',' :: r2 =>
          match skipWs1 r2 with
          | none => []
          | some r3 =>
            (parseYear4F r3).filterMap (fun ey =>
              if ey.2.isEmpty then mkValidDate ey.1 em.1 ed.1 else none)
        | _ => []))).head?

/-- The month-name format of day, abbreviated month, year. -/
def parseDbY (s : List Char) : Option String :=
  ((parseDayF s).flatMap (fun ed =>
    match skipWs1 ed.2 with
    | none => []
    | some r1 =>
      (parseAbbrevMonth r1).flatMap (fun em =>
        match skipWs1 em.2 with
        | none => []
        | some r2 =>
          (parseYear4F r2).filterMap (fun ey =>
            if ey.2.isEmpty then mkValidDate ey.1 em.1 ed.1 else none)))).head?

/-- Format cascade of the script for one matched date string: the eight numeric
formats in order, then, only when the string contains a month abbreviation, the
two month-name formats. -/
def tryFormats (ds : List Char) : Option String :=
  match tryNumericFormats ds with
  | some r => some r
  | none =>
    if monthAbbrevs.any (fun m => containsSub m.toList (lowerL ds)) then
      match parseBdY ds with
      | some r => some r
      | none => parseDbY ds
    else none

/-- Loop of the date extractor over the date patterns: the first pattern with a
match supplies its leftmost matched slice; when the format cascade fails on
that slice, the loop continues with the next pattern; when every pattern fails,
the current calendar date is returned. -/
def extractDateLoop (pats : List Reg) (text : List Char) (today : String) : String :=
  match pats with
  | [] => today
  | p :: rest =>
    match findMatch p text with
    | none => extractDateLoop rest text today
    | some ds =>
      match tryFormats ds with
      | some iso => iso
      | none => extractDateLoop rest text today

/-- Date extraction from free text, with the current calendar date as the
explicit fallback parameter. -/
def extractDate (text today : String) : String :=
  extractDateLoop datePatterns text.toList today

/-! ### Validation, classification, unit extraction and free-text parsing -/

/-- Association-list lookup in Python dict insertion order. -/
def alookup {α : Type} (k : String) : List (String × α) → Option α
  | [] => none
  | e :: t => if e.1 = k then some e.2 else alookup k t

/-- Lowercasing of a string. -/
def lowerStr (s : String) : String := String.mk (lowerL s.toList)

/-- Whitespace stripping at both ends, as the Python strip method. -/
def stripStr (s : String) : String :=
  String.mk (((s.toList.dropWhile isSpaceB).reverse.dropWhile isSpaceB).reverse)

/-- Title casing: the first cased character of each word uppercased, the rest
lowercased, as the Python title method on ASCII input. -/
def titleCase (s : String) : String :=
  String.mk (s.toList.foldl (fun (acc : List Char × Bool) c =>
    if c.isAlpha then (acc.1 ++ [if acc.2 then c.toLower else c.toUpper], true)
    else (acc.1 ++ [c], false)) ([], false)).1

/-- Plausibility validation of a biomarker value: values of biomarkers with a
registered range must lie within it inclusively; biomarkers without a range are
always accepted. -/
def validateBiomarkerValue (b : String) (v : ℚ) : Bool :=
  match alookup b validationRanges with
  | some r => decide (r.1 ≤ v ∧ v ≤ r.2)
  | none => true

/-- Clinical status of a biomarker value: the title-cased name of the first
bucket, in table order, whose inclusive bounds contain the value; the fixed
string for no matching bucket; the fixed string for an unregistered
biomarker. -/
def getClinicalStatus (b : String) (v : ℚ) : String :=
  match alookup b clinicalRanges with
  | none => "Unknown"
  | some rs =>
    match rs.find? (fun e => decide (e.2.1 ≤ v ∧ v ≤ e.2.2)) with
    | some e => titleCase e.1
    | none => "Out of range"

/-- Loop of the free-text unit extractor over its key-pattern table. -/
def extractUnitLoop : List (String × Reg) → List Char → List Char → String
  | [], _, _ => ""
  | e :: t, bl, txt =>
    if containsSub e.1.toList bl then
      match findMatch e.2 txt with
      | some m => String.mk m
      | none => extractUnitLoop t bl txt
    else extractUnitLoop t bl txt

/-- Unit extraction for a biomarker from the raw text: the first table entry
whose key occurs in the lowercased biomarker name and whose unit pattern occurs
in the text supplies the matched slice of the original text. -/
def extractUnit (text b : String) : String :=
  extractUnitLoop unitPatterns (lowerL b.toList) text.toList

/-- Loop of the free-text value extractor over one biomarker's patterns: the
first pattern with a match whose captured value passes validation wins; a match
that fails validation does not stop the loop, later patterns are still
tried. -/
def tryPatterns (b : String) : List Reg → List Char → Option ℚ
  | [], _ => none
  | p :: rest, tl =>
    match findCapture (.cat p colonGlue) tl with
    | none => tryPatterns b rest tl
    | some cap =>
      let v := ratOfNumChars cap
      if validateBiomarkerValue b v then some v else tryPatterns b rest tl

/-- One extracted biomarker reading, with the fields of the source dictionary
in order. -/
structure Reading where
  date : String
  value : ℚ
  unit : String
  status : String
  deriving DecidableEq, Repr, Inhabited

/-- Biomarker map: biomarker name to list of readings, in insertion order. -/
abbrev BioMap := List (String × List Reading)

/-- Free-text biomarker extraction: for each biomarker of the registry, in
registry order, the first validated pattern capture yields one single-reading
series dated with the report date and annotated with unit and clinical
status. -/
def parseTextForBiomarkers (text today : String) : BioMap :=
  let tl := lowerL text.toList
  let rd := extractDate text today
  biomarkerPatterns.filterMap (fun e =>
    match tryPatterns e.1 e.2 tl with
    | some v => some (e.1, [⟨rd, v, extractUnit text e.1, getClinicalStatus e.1 v⟩])
    | none => none)

/-! ### Table parsing -/

/-- First embedded numeric substring of a cell, the table analogue of the
numeric capture group. -/
def findNumberCell (s : List Char) : Option (List Char) := findCapture .eps s

/-- Unit extraction from a table cell: the leftmost occurrence of word
characters, slash, word characters, or of a percent sign. -/
def extractUnitFromCell : List Char → String
  | [] => ""
  | c :: t =>
    let run := (c :: t).takeWhile isWordB
    match run, (c :: t).drop run.length with
    | _ :: _, '/' :: r2 =>
      let run2 := r2.takeWhile isWordB
      if run2.isEmpty then extractUnitFromCell t
      else String.mk (run ++ '/' :: run2)
    | _, _ =>
      if run.isEmpty && c = '%' then "%" else extractUnitFromCell t

/-- Date extraction from a table row: the first non-empty cell whose extracted
date differs from the fallback supplies the date; otherwise the fallback. -/
def extractDateFromRow (row : List String) (today : String) : String :=
  match row with
  | [] => today
  | cell :: t =>
    if cell ≠ "" then
      let d := extractDate cell today
      if d ≠ today then d else extractDateFromRow t today
    else extractDateFromRow t today

/-- Dict append of one reading under a biomarker key: creates the key at the
end when absent, otherwise appends to its list. -/
def dictAppendR (m : BioMap) (b : String) (r : Reading) : BioMap :=
  if (alookup b m).isSome then
    m.map (fun e => if e.1 = b then (e.1, e.2 ++ [r]) else e)
  else m ++ [(b, [r])]

/-- Header test of one biomarker against a lowercased stripped column header:
some pattern, loosened, matches somewhere in the header.  The source breaks out
of its pattern loop at the first hit, and the subsequent cell scan does not
depend on which pattern hit. -/
def headerMatches (ps : List Reg) (colL : List Char) : Bool :=
  ps.any (fun p => searchB (loosen p) colL)

/-- Cell scan of one matched column for one biomarker: every data row's cell is
stripped, its first embedded number extracted and validated, and each valid
value appended as a reading dated from the row. -/
def processColumn (acc : BioMap) (b : String) (colIdx : Nat)
    (rows : List (List String)) (today : String) : BioMap :=
  rows.foldl (fun acc2 row =>
    let valueStr := stripStr ((row.get? colIdx).getD "")
    match findNumberCell valueStr.toList with
    | none => acc2
    | some cap =>
      let v := ratOfNumChars cap
      if validateBiomarkerValue b v then
        dictAppendR acc2 b
          ⟨extractDateFromRow row today, v, extractUnitFromCell valueStr.toList,
            getClinicalStatus b v⟩
      else acc2) acc

/-- Processing of one table: the first row is the header; every non-empty
column header is tested, lowercased and stripped, against every biomarker's
loosened patterns, and each matching biomarker's cell scan runs over the data
rows. -/
def processTable (acc : BioMap) (tbl : List (List String)) (today : String) : BioMap :=
  match tbl with
  | [] => acc
  | header :: rows =>
    (List.range header.length).foldl (fun a j =>
      let col := (header.get? j).getD ""
      if col = "" then a
      else
        let colL := (stripStr (lowerStr col)).toList
        biomarkerPatterns.foldl (fun a2 e =>
          if headerMatches e.2 colL then processColumn a2 e.1 j rows today else a2) a) acc

/-- Table biomarker extraction over a list of tables; tables with fewer than
two rows are skipped. -/
def parseTablesForBiomarkers (tables : List (List (List String))) (today : String) : BioMap :=
  tables.foldl (fun acc tbl => if tbl.length < 2 then acc else processTable acc tbl today) []

/-! ### Aggregation and post-processing -/

/-- Duplicate key of a reading: its date and value pair. -/
def keyDV (r : Reading) : String × ℚ := (r.date, r.value)

/-- Deduplication keeping first occurrences, with the already-seen key set
threaded explicitly. -/
def dedupeAux (seen : List (String × ℚ)) : List Reading → List Reading
  | [] => []
  | r :: rs =>
    if keyDV r ∈ seen then dedupeAux seen rs
    else r :: dedupeAux (keyDV r :: seen) rs

/-- Deduplication of a reading list on exact date-value pairs. -/
def dedupe (l : List Reading) : List Reading := dedupeAux [] l

/-- Date order on readings: code-point comparison of the date strings, the
order Python list sort uses with the date key. -/
def dLe (a b : Reading) : Prop := clistLe a.date.toList b.date.toList = true

instance : DecidableRel dLe := fun x y =>
  inferInstanceAs (Decidable (clistLe x.date.toList y.date.toList = true))

instance : IsTotal Reading dLe := by
  constructor
  intro a b
  show clistLe a.date.toList b.date.toList = true ∨ clistLe b.date.toList a.date.toList = true
  generalize a.date.toList = x
  generalize b.date.toList = y
  induction x generalizing y with
  | nil => exact Or.inl rfl
  | cons c cs ih =>
    cases y with
    | nil => exact Or.inr rfl
    | cons d ds =>
      simp only [clistLe]
      rcases Nat.lt_trichotomy c.toNat d.toNat with h | h | h
      · left; simp [h]
      · have h1 : ¬ c.toNat < d.toNat := by omega
        have h2 : ¬ d.toNat < c.toNat := by omega
        rcases ih ds with h3 | h3
        · left; simp [h1, h2, h3]
        · right; simp [h1, h2, h3]
      · right; simp [h]

instance : IsTrans Reading dLe := by
  constructor
  intro a b c hab hbc
  show clistLe a.date.toList c.date.toList = true
  revert hab hbc
  show clistLe a.date.toList b.date.toList = true →
    clistLe b.date.toList c.date.toList = true → _
  generalize a.date.toList = x
  generalize b.date.toList = y
  generalize c.date.toList = z
  induction x generalizing y z with
  | nil => intro _ _; rfl
  | cons xa xs ih =>
    cases y with
    | nil => intro h; simp [clistLe] at h
    | cons ya ys =>
      cases z with
      | nil => intro _ h; simp [clistLe] at h
      | cons za zs =>
        intro hab hbc
        simp only [clistLe] at hab hbc ⊢
        by_cases h1 : xa.toNat < ya.toNat
        · by_cases h2 : ya.toNat < za.toNat
          · have h5 : xa.toNat < za.toNat := by omega
            simp [h5]
          · by_cases h4 : za.toNat < ya.toNat
            · simp [h2, h4] at hbc
            · have h5 : xa.toNat < za.toNat := by omega
              simp [h5]
        · by_cases h3 : ya.toNat < xa.toNat
          · simp [h1, h3] at hab
          · simp [h1, h3] at hab
            by_cases h2 : ya.toNat < za.toNat
            · have h5 : xa.toNat < za.toNat := by omega
              simp [h5]
            · by_cases h4 : za.toNat < ya.toNat
              · simp [h2, h4] at hbc
              · simp [h2, h4] at hbc
                have h5 : ¬ xa.toNat < za.toNat := by omega
                have h6 : ¬ za.toNat < xa.toNat := by omega
                simp [h5, h6]
                exact ih ys zs hab hbc

/-- Post-processing of one reading list: for lists of more than one element,
exact date-value duplicates are dropped keeping first occurrences and the rest
is stably sorted ascending by date; shorter lists pass through unchanged. -/
def postProcessSeries (vals : List Reading) : List Reading :=
  if 1 < vals.length then List.insertionSort dLe (dedupe vals) else vals

/-- Post-processing of a whole biomarker map. -/
def postProcessData (m : BioMap) : BioMap :=
  m.map (fun e => (e.1, postProcessSeries e.2))

/-- Python dict update: keys of the first map keep their positions with values
replaced by the second map's where present, and keys only in the second map are
appended in its order.  This is how extraction passes are merged. -/
def dictUpdate (a b : BioMap) : BioMap :=
  a.map (fun e => (e.1, (alookup e.1 b).getD e.2)) ++
    b.filter (fun e => (alookup e.1 a).isNone)

/-! ### Trend analysis -/

/-- Least-squares slope of a first-degree fit of the values against positions
zero to length minus one, the slope numpy polyfit returns. -/
def lsqSlope (ys : List ℚ) : ℚ :=
  let n : ℚ := ys.length
  let pairs := (List.range ys.length).zip ys
  let sx : ℚ := (pairs.map (fun e => (e.1 : ℚ))).sum
  let sy : ℚ := ys.sum
  let sxy : ℚ := (pairs.map (fun e => (e.1 : ℚ) * e.2)).sum
  let sxx : ℚ := (pairs.map (fun e => ((e.1 : ℚ)) ^ 2)).sum
  (n * sxy - sx * sy) / (n * sxx - sx ^ 2)

/-- Percent change of the last value against the first, defined as zero when
the first value is zero. -/
def percentChangeOf (firstV lastV : ℚ) : ℚ :=
  if firstV ≠ 0 then (lastV - firstV) / firstV * 100 else 0

/-- Rounding to the nearest integer, ties to even, as the Python round
builtin. -/
def roundHalfEven (x : ℚ) : ℤ :=
  if x - Rat.floor x < 1 / 2 then Rat.floor x
  else if (1 : ℚ) / 2 < x - Rat.floor x then Rat.floor x + 1
  else if Rat.floor x % 2 = 0 then Rat.floor x else Rat.floor x + 1

/-- Rounding to a number of decimal places, ties to even. -/
def roundTo (k : Nat) (x : ℚ) : ℚ := (roundHalfEven (x * 10 ^ k) : ℚ) / 10 ^ k

/-- Absolute value of a rational, as the Python abs builtin. -/
def absQ (x : ℚ) : ℚ := if x < 0 then -x else x

/-- Classification of a slope into a trend direction with the fixed
threshold. -/
def trendDirectionOf (slope : ℚ) : String :=
  if absQ slope < 0.1 then "stable" else if 0 < slope then "increasing" else "decreasing"

/-- Trend summary of one biomarker, with the fields of the source
dictionary. -/
structure TrendSummary where
  trendDirection : String
  slope : ℚ
  percentChange : ℚ
  dataPoints : Nat
  dateRange : String
  latestValue : ℚ
  latestStatus : String
  deriving DecidableEq, Repr, Inhabited

/-- Trend computation for one reading list: values sorted by date, least-squares
slope, direction, and percent change of last against first with the
zero-denominator guard; the slope and percent change fields are rounded to four
and two decimal places for the summary. -/
def mkTrend (vals : List Reading) : TrendSummary :=
  let sortedVals := List.insertionSort dLe vals
  let ys := sortedVals.map (fun r => r.value)
  let slope := lsqSlope ys
  let firstV := ys.headD 0
  let lastV := ys.getLastD 0
  { trendDirection := trendDirectionOf slope
    slope := roundTo 4 slope
    percentChange := roundTo 2 (percentChangeOf firstV lastV)
    dataPoints := ys.length
    dateRange := (sortedVals.headD default).date ++ " to " ++ (sortedVals.getLastD default).date
    latestValue := lastV
    latestStatus := (sortedVals.getLastD default).status }

/-- Trend analysis over a biomarker map: one summary per biomarker whose series
has more than one reading, in map order; shorter series produce no entry. -/
def generateTrendAnalysis (m : BioMap) : List (String × TrendSummary) :=
  m.filterMap (fun e => if 1 < e.2.length then some (e.1, mkTrend e.2) else none)

/-! ### The simple extractor of data-extractor.py -/

namespace Simple

/-- Biomarker patterns of the BiomarkerExtractor, one core per biomarker, in
source dictionary order.  The vitamin patterns use whitespace plus where the
advanced registry uses whitespace star. -/
def biomarkerPatterns : List (String × Reg) :=
  [ ("Total Cholesterol", .cat (.ncOpt (.cat (litR "total") wsP)) (litR "cholesterol")),
    ("LDL", seqR [litR "ldl", wsS, .ncOpt (litR "cholesterol")]),
    ("HDL", seqR [litR "hdl", wsS, .ncOpt (litR "cholesterol")]),
    ("Triglycerides", .cat (litR "triglyceride") (.opt (.chr 's'))),
    ("Creatinine", litR "creatinine"),
    ("Vitamin D", seqR [litR "vitamin", wsP, litR "d", wsS, .ncOpt (seqR [litR "25", wsS, litR "oh"])]),
    ("Vitamin B12", seqR [.ncOpt (.cat (litR "vitamin") wsP), litR "b", wsS, litR "12"]),
    ("HbA1c", litR "hba1c") ]

/-- The single date pattern the simple extractor searches. -/
def dateRe : Reg :=
  seqR [.rep .digit 1 2, .cls sepCl, .rep .digit 1 2, .cls sepCl, .rep .digit 2 4]

/-- One reading of the simple extractor: date and value only, no unit and no
status. -/
structure SimpleReading where
  date : String
  value : ℚ
  deriving DecidableEq, Repr

/-- Free-text extraction of the simple extractor: the text is lowercased, the
report date is the first slash-or-dash date parsed with the single
month-day-year format or else the current date, and every biomarker whose
pattern matches yields one reading holding the first capture, with no
validation and no classification. -/
def parseTextForBiomarkers (text today : String) : List (String × List SimpleReading) :=
  let tl := lowerL text.toList
  let reportDate :=
    match findMatch dateRe tl with
    | some ds =>
      ((seqParse3 parseMonthF parseDayF parseYear4F '/' ds).bind
        (fun v => mkValidDate v.2.2 v.1 v.2.1)).getD today
    | none => today
  biomarkerPatterns.filterMap (fun e =>
    match findCapture (.cat e.2 colonGlue) tl with
    | some cap => some (e.1, [⟨reportDate, ratOfNumChars cap⟩])
    | none => none)

end Simple

/-! ### Helper lemmas -/

theorem alookup_map_value {α β : Type} (k : String) (f : α → β) (m : List (String × α)) :
    alookup k (m.map (fun e => (e.1, f e.2))) = (alookup k m).map f := by
  induction m with
  | nil => rfl
  | cons e t ih =>
    by_cases h : e.1 = k
    · simp [alookup, h]
    · simp [alookup, h, ih]

theorem alookup_isSome_of_mem {α : Type} {m : List (String × α)} {e : String × α}
    (h : e ∈ m) : (alookup e.1 m).isSome := by
  induction m with
  | nil => simp at h
  | cons e0 t ih =>
    rcases List.mem_cons.mp h with rfl | ht
    · simp [alookup]
    · by_cases he : e0.1 = e.1
      · simp [alookup, he]
      · simpa [alookup, he] using ih ht

theorem alookup_eq_of_mem_nodup {α : Type} {m : List (String × α)}
    (hnd : (m.map Prod.fst).Nodup) {e : String × α} (h : e ∈ m) :
    alookup e.1 m = some e.2 := by
  induction m with
  | nil => simp at h
  | cons e0 t ih =>
    have hnd2 : (e0.1 :: t.map Prod.fst).Nodup := by simpa using hnd
    rcases List.mem_cons.mp h with rfl | ht
    · simp [alookup]
    · have hne : e0.1 ≠ e.1 := by
        intro hc
        exact (List.nodup_cons.mp hnd2).1 (hc ▸ List.mem_map_of_mem Prod.fst ht)
      have : (t.map Prod.fst).Nodup := (List.nodup_cons.mp hnd2).2
      simpa [alookup, hne] using ih this ht

theorem alookup_append {α : Type} (k : String) (x y : List (String × α)) :
    alookup k (x ++ y) =
      (match alookup k x with
       | some v => some v
       | none => alookup k y) := by
  induction x with
  | nil => rfl
  | cons e t ih =>
    by_cases h : e.1 = k
    · simp [alookup, h]
    · simpa [alookup, h] using ih

theorem alookup_none_of_not_mem_keys {α : Type} {k : String} {m : List (String × α)}
    (h : k ∉ m.map Prod.fst) : alookup k m = none := by
  induction m with
  | nil => rfl
  | cons e t ih =>
    have hne : e.1 ≠ k := by
      intro hc
      exact h (by simp [hc])
    have : k ∉ t.map Prod.fst := by
      intro hc
      exact h (by simp [hc])
    simpa [alookup, hne] using ih this

theorem absQ_eq_abs (x : ℚ) : absQ x = |x| := by
  unfold absQ
  split_ifs with h
  · exact (abs_of_neg h).symm
  · exact (abs_of_nonneg (le_of_not_lt h)).symm

theorem exists_mem_of_alookup_some {α : Type} {k : String} {m : List (String × α)} {v : α}
    (h : alookup k m = some v) : ∃ e ∈ m, e.1 = k := by
  induction m with
  | nil => simp [alookup] at h
  | cons e t ih =>
    by_cases he : e.1 = k
    · exact ⟨e, List.mem_cons_self e t, he⟩
    · rw [alookup, if_neg he] at h
      obtain ⟨x, hx, hxk⟩ := ih h
      exact ⟨x, List.mem_cons_of_mem _ hx, hxk⟩

theorem find?_eq_of_first {α : Type} (p : α → Bool) (l : List α) (i : Nat) (hi : i < l.length)
    (hp : p (l.get ⟨i, hi⟩) = true)
    (hbefore : ∀ j (hj : j < i), p (l.get ⟨j, Nat.lt_trans hj hi⟩) = false) :
    l.find? p = some (l.get ⟨i, hi⟩) := by
  induction l generalizing i with
  | nil => simp at hi
  | cons a t ih =>
    cases i with
    | zero =>
      simpa using List.find?_cons_of_pos t (by simpa using hp)
    | succ n =>
      have h0 : p a = false := by simpa using hbefore 0 (Nat.succ_pos n)
      have hn : n < t.length := by simpa using hi
      rw [List.find?_cons_of_neg t (by simp [h0])]
      exact ih n hn (by simpa using hp)
        (fun j hj => by simpa using hbefore (j + 1) (by omega))

theorem dedupeAux_pairwise_and_unseen (l : List Reading) :
    ∀ seen : List (String × ℚ),
      (dedupeAux seen l).Pairwise (fun x y => keyDV x ≠ keyDV y) ∧
      ∀ r ∈ dedupeAux seen l, keyDV r ∉ seen := by
  induction l with
  | nil => intro seen; exact ⟨List.Pairwise.nil, by simp [dedupeAux]⟩
  | cons r rs ih =>
    intro seen
    by_cases h : keyDV r ∈ seen
    · simpa [dedupeAux, h] using ih seen
    · have hrec := ih (keyDV r :: seen)
      constructor
      · simp only [dedupeAux, if_neg h]
        refine List.Pairwise.cons ?_ hrec.1
        intro y hy
        have := hrec.2 y hy
        intro hc
        exact this (by simp [hc])
      · simp only [dedupeAux, if_neg h]
        intro x hx
        rcases List.mem_cons.mp hx with rfl | hx2
        · exact h
        · have := hrec.2 x hx2
          intro hc
          exact this (List.mem_cons_of_mem _ hc)

theorem postProcessSeries_sorted (vals : List Reading) :
    List.Sorted dLe (postProcessSeries vals) ∨ (postProcessSeries vals).length ≤ 1 := by
  by_cases h : 1 < vals.length
  · left
    simp only [postProcessSeries, if_pos h]
    exact List.sorted_insertionSort dLe (dedupe vals)
  · right
    simp only [postProcessSeries, if_neg h]
    omega

theorem postProcessSeries_pairwise (vals : List Reading) (h : 1 < vals.length) :
    (postProcessSeries vals).Pairwise (fun x y => keyDV x ≠ keyDV y) := by
  simp only [postProcessSeries, if_pos h]
  have hperm := List.perm_insertionSort dLe (dedupe vals)
  have hsym : ∀ {x y : Reading}, keyDV x ≠ keyDV y → keyDV y ≠ keyDV x :=
    fun hxy => Ne.symm hxy
  exact (List.Perm.pairwise_iff hsym hperm).mpr (dedupeAux_pairwise_and_unseen vals []).1

theorem postProcessSeries_invariants (vals : List Reading) :
    (∀ i (hi : i + 1 < (postProcessSeries vals).length),
      dLe ((postProcessSeries vals).get ⟨i, by omega⟩) ((postProcessSeries vals).get ⟨i + 1, hi⟩)) ∧
    (postProcessSeries vals).Pairwise (fun x y => keyDV x ≠ keyDV y) := by
  by_cases h : 1 < vals.length
  · constructor
    · intro i hi
      have hs : List.Sorted dLe (postProcessSeries vals) := by
        simp only [postProcessSeries, if_pos h]
        exact List.sorted_insertionSort dLe (dedupe vals)
      exact hs.rel_get_of_lt (by simp [Fin.lt_def])
    · exact postProcessSeries_pairwise vals h
  · have hlen : (postProcessSeries vals).length ≤ 1 := by
      simp only [postProcessSeries, if_neg h]
      omega
    constructor
    · intro i hi
      omega
    · match hv : postProcessSeries vals with
      | [] => exact List.Pairwise.nil
      | [r] => exact List.pairwise_singleton _ r
      | r1 :: r2 :: t => rw [hv] at hlen; simp at hlen

theorem map_lookup_getD_eq_self (m b : BioMap) (h : ∀ e ∈ m, alookup e.1 b = none) :
    m.map (fun e => (e.1, (alookup e.1 b).getD e.2)) = m := by
  induction m with
  | nil => rfl
  | cons e t ih =>
    have he := h e (List.mem_cons_self e t)
    have ht := fun x hx => h x (List.mem_cons_of_mem e hx)
    simp [he, ih ht]

theorem dictUpdate_self (m : BioMap) (hnd : (m.map Prod.fst).Nodup) : dictUpdate m m = m := by
  have h1 : m.map (fun e => (e.1, (alookup e.1 m).getD e.2)) = m := by
    have : ∀ e ∈ m, (fun e => (e.1, (alookup e.1 m).getD e.2)) e = id e := by
      intro e he
      simp [alookup_eq_of_mem_nodup hnd he]
    rw [List.map_congr_left this, List.map_id]
  have h2 : m.filter (fun e => (alookup e.1 m).isNone) = [] := by
    refine List.filter_eq_nil_iff.mpr ?_
    intro e he hc
    have hs := alookup_isSome_of_mem he
    rw [Option.isNone_iff_eq_none.mp hc] at hs
    simp at hs
  unfold dictUpdate
  rw [h1, h2, List.append_nil]

theorem dictUpdate_disjoint_append (a b : BioMap)
    (ha : ∀ e ∈ a, alookup e.1 b = none) (hb : ∀ e ∈ b, alookup e.1 a = none) :
    dictUpdate a b = a ++ b := by
  unfold dictUpdate
  rw [map_lookup_getD_eq_self a b ha]
  have : b.filter (fun e => (alookup e.1 a).isNone) = b := by
    refine List.filter_eq_self.mpr ?_
    intro e he
    simp [hb e he]
  rw [this]

theorem alookup_append_comm_of_disjoint (a b : BioMap)
    (hdisj : ∀ k, alookup k a = none ∨ alookup k b = none) (k : String) :
    alookup k (a ++ b) = alookup k (b ++ a) := by
  rw [alookup_append, alookup_append]
  cases hx : alookup k a with
  | none => cases hy : alookup k b <;> simp
  | some v =>
    rcases hdisj k with h | h
    · rw [h] at hx; cases hx
    · rw [h]

theorem alookup_trend_none (b : String) (m : BioMap) (h : b ∉ m.map Prod.fst) :
    alookup b (generateTrendAnalysis m) = none := by
  induction m with
  | nil => rfl
  | cons e t ih =>
    have hne : e.1 ≠ b := fun hc => h (by simp [hc])
    have ht : b ∉ t.map Prod.fst := fun hc => h (by simp [hc])
    by_cases hl : 1 < e.2.length <;>
      simpa [generateTrendAnalysis, List.filterMap_cons, hl, alookup, hne] using ih ht

theorem alookup_trend (m : BioMap) (hnd : (m.map Prod.fst).Nodup) (b : String)
    (vals : List Reading) (hmem : (b, vals) ∈ m) :
    alookup b (generateTrendAnalysis m) =
      if 1 < vals.length then some (mkTrend vals) else none := by
  induction m with
  | nil => simp at hmem
  | cons e t ih =>
    have hnd2 : (e.1 :: t.map Prod.fst).Nodup := by simpa using hnd
    rcases List.mem_cons.mp hmem with heq | hmemT
    · have he : e = (b, vals) := heq.symm
      subst he
      have hnotin : b ∉ t.map Prod.fst := by simpa using (List.nodup_cons.mp hnd2).1
      by_cases hl : 1 < vals.length
      · simp [generateTrendAnalysis, List.filterMap_cons, hl, alookup]
      · simpa [generateTrendAnalysis, List.filterMap_cons, hl]
          using alookup_trend_none b t hnotin
    · have hbmem : b ∈ t.map Prod.fst := by
        have := List.mem_map_of_mem Prod.fst hmemT
        simpa using this
      have hne : e.1 ≠ b := fun hc => (List.nodup_cons.mp hnd2).1 (hc ▸ hbmem)
      have hndt : (t.map Prod.fst).Nodup := (List.nodup_cons.mp hnd2).2
      by_cases hl : 1 < e.2.length <;>
        simpa [generateTrendAnalysis, List.filterMap_cons, hl, alookup, hne]
          using ih hndt hmemT

theorem filterMap_extract_single (tl : List Char) (mk : String → ℚ → String × List Reading)
    (L : List (String × List Reg)) (b : String) (ps : List Reg) (v : ℚ)
    (hmem : (b, ps) ∈ L) (hnd : (L.map Prod.fst).Nodup)
    (hv : tryPatterns b ps tl = some v)
    (hall : ∀ e ∈ L, e.1 ≠ b → tryPatterns e.1 e.2 tl = none) :
    L.filterMap (fun e =>
      match tryPatterns e.1 e.2 tl with
      | some v2 => some (mk e.1 v2)
      | none => none) = [mk b v] := by
  induction L with
  | nil => simp at hmem
  | cons e t ih =>
    have hnd2 : (e.1 :: t.map Prod.fst).Nodup := by simpa using hnd
    rcases List.mem_cons.mp hmem with heq | hmemT
    · have he : e = (b, ps) := heq.symm
      subst he
      have hnotin : b ∉ t.map Prod.fst := by simpa using (List.nodup_cons.mp hnd2).1
      have htail : t.filterMap (fun e =>
          match tryPatterns e.1 e.2 tl with
          | some v2 => some (mk e.1 v2)
          | none => none) = [] := by
        refine List.filterMap_eq_nil_iff.mpr ?_
        intro x hx
        have hxne : x.1 ≠ b := by
          intro hc
          exact hnotin (hc ▸ (by simpa using List.mem_map_of_mem Prod.fst hx))
        rw [hall x (List.mem_cons_of_mem _ hx) hxne]
      simp [List.filterMap_cons, hv, htail]
    · have hbmem : b ∈ t.map Prod.fst := by
        have := List.mem_map_of_mem Prod.fst hmemT
        simpa using this
      have hne : e.1 ≠ b := fun hc => (List.nodup_cons.mp hnd2).1 (hc ▸ hbmem)
      have hndt : (t.map Prod.fst).Nodup := (List.nodup_cons.mp hnd2).2
      have he0 : tryPatterns e.1 e.2 tl = none := hall e (List.mem_cons_self e t) hne
      have := ih hmemT hndt (fun x hx hxne => hall x (List.mem_cons_of_mem _ hx) hxne)
      simpa [List.filterMap_cons, he0] using this

/-! ### Claim theorems -/

/-- C2: classification is a total function returning exactly one status; a
value is assigned the first bucket in table iteration order whose inclusive
bounds contain it; a value matching no bucket of a registered biomarker is
classified Out of range; a biomarker with no table entry is classified
Unknown. -/
theorem c2_classification :
    (∀ (b : String) (v : ℚ), alookup b clinicalRanges = none →
      getClinicalStatus b v = "Unknown") ∧
    (∀ (b : String) (v : ℚ) (rs : List (String × ℚ × ℚ)), alookup b clinicalRanges = some rs →
      ((∀ i (hi : i < rs.length),
          ((rs.get ⟨i, hi⟩).2.1 ≤ v ∧ v ≤ (rs.get ⟨i, hi⟩).2.2) →
          (∀ j (hj : j < i), ¬((rs.get ⟨j, Nat.lt_trans hj hi⟩).2.1 ≤ v ∧
            v ≤ (rs.get ⟨j, Nat.lt_trans hj hi⟩).2.2)) →
          getClinicalStatus b v = titleCase (rs.get ⟨i, hi⟩).1) ∧
        ((∀ e ∈ rs, ¬(e.2.1 ≤ v ∧ v ≤ e.2.2)) → getClinicalStatus b v = "Out of range"))) := by
  constructor
  · intro b v h
    simp [getClinicalStatus, h]
  · intro b v rs h
    constructor
    · intro i hi hvi hbefore
      have hfind := find?_eq_of_first (fun e => decide (e.2.1 ≤ v ∧ v ≤ e.2.2)) rs i hi
        (by simpa using hvi) (fun j hj => by simpa using hbefore j hj)
      simp only [Bool.decide_and] at hfind
      simp [getClinicalStatus, h, hfind]
    · intro hnone
      have hfind : rs.find? (fun e => decide (e.2.1 ≤ v ∧ v ≤ e.2.2)) = none := by
        rw [List.find?_eq_none]
        intro x hx
        simpa using hnone x hx
      simp only [Bool.decide_and] at hfind
      simp [getClinicalStatus, h, hfind]

/-- Witness for C2 at concrete inputs: an unregistered biomarker, a first-match
bucket, and a registered biomarker whose value lies in no bucket. -/
theorem c2_classification_witness :
    getClinicalStatus "BUN" 12 = "Unknown" ∧
    getClinicalStatus "Total Cholesterol" 250 = "High" ∧
    getClinicalStatus "HDL" 1500 = "Out of range" := by
  refine ⟨?_, ?_, ?_⟩
  · exact c2_classification.1 "BUN" 12 (by decide)
  · have h := (c2_classification.2 "Total Cholesterol" 250
      [("normal", 0, 200), ("borderline", 200, 240), ("high", 240, 999)] (by decide)).1
      2 (by decide) (by decide) (by decide)
    exact h.trans (by decide)
  · exact (c2_classification.2 "HDL" 1500
      [("low", 0, 40), ("normal", 40, 999)] (by decide)).2 (by decide)

/-- C3 counterexample: the table with header LDL and Date and the two data rows
of the claim yields an empty biomarker map, not a two-reading LDL series,
because no biomarker's loosened pattern matches the bare header LDL. -/
theorem c3_table_counterexample :
    parseTablesForBiomarkers
      [[["LDL", "Date"], ["145", "02/01/2024"], ["150", "03/01/2024"]]] "2026-10-12" = [] := by
  rfl

/-- C3 amended: the loosened patterns strip the optional-group markers, so the
loosened first LDL pattern demands the word cholesterol after ldl and the bare
header LDL matches no biomarker at all; the claimed table therefore produces no
readings.  The bucket-boundary part of the claim does hold: 150 and the bound
160 itself both classify as Borderline under the inclusive LDL bucket from 100
to 160. -/
theorem c3_table_header_no_match :
    biomarkerPatterns.all
      (fun e => !headerMatches e.2 (stripStr (lowerStr "LDL")).toList) = true ∧
    biomarkerPatterns.all
      (fun e => !headerMatches e.2 (stripStr (lowerStr "Date")).toList) = true ∧
    (∀ today, parseTablesForBiomarkers
      [[["LDL", "Date"], ["145", "02/01/2024"], ["150", "03/01/2024"]]] today = []) ∧
    getClinicalStatus "LDL" 150 = "Borderline" ∧
    getClinicalStatus "LDL" 160 = "Borderline" :=
  ⟨by decide, by decide, fun _ => rfl, by decide, by decide⟩

/-- C6: validation accepts exactly the values inside the registered inclusive
plausibility range, and always accepts biomarkers without a registered range; a
match failing validation silently falls through to later patterns of the same
biomarker; the value 5 for Total Cholesterol is rejected and the text emits no
reading at all. -/
theorem c6_validation :
    (∀ (b : String) (v : ℚ), validateBiomarkerValue b v = true ↔
      ∀ lo hi : ℚ, alookup b validationRanges = some (lo, hi) → lo ≤ v ∧ v ≤ hi) ∧
    (∀ (b : String) (p : Reg) (ps : List Reg) (tl : List Char) (cap : List Char),
      findCapture (.cat p colonGlue) tl = some cap →
      validateBiomarkerValue b (ratOfNumChars cap) = false →
      tryPatterns b (p :: ps) tl = tryPatterns b ps tl) ∧
    (∀ today, parseTextForBiomarkers "cholesterol: 5" today = []) := by
  refine ⟨?_, ?_, fun _ => rfl⟩
  · intro b v
    cases h : alookup b validationRanges with
    | none => simp [validateBiomarkerValue, h]
    | some r =>
      simp only [validateBiomarkerValue, h, decide_eq_true_eq]
      constructor
      · intro hv lo hi heq
        cases heq
        exact hv
      · intro hall
        exact hall r.1 r.2 (by rw [Prod.mk.eta])
  · intro b p ps tl cap hcap hval
    simp only [tryPatterns, hcap, hval]
    simp

/-- Witness for C6: the validation characterization at Total Cholesterol 250,
the fall-through of the first Total Cholesterol pattern on the rejected value
5, and the empty parse of the rejected text. -/
theorem c6_validation_witness :
    (validateBiomarkerValue "Total Cholesterol" 250 = true ↔
      ∀ lo hi : ℚ, alookup "Total Cholesterol" validationRanges = some (lo, hi) →
        lo ≤ 250 ∧ 250 ≤ hi) ∧
    tryPatterns "Total Cholesterol"
      [ Reg.cat (.ncOpt (.cat (litR "total") wsP)) (litR "cholesterol"),
        seqR [litR "cholesterol", .opt (.chr ','), wsS, litR "total"],
        litR "chol", litR "tc" ] (lowerL "cholesterol: 5".toList) =
      tryPatterns "Total Cholesterol"
        [ seqR [litR "cholesterol", .opt (.chr ','), wsS, litR "total"],
          litR "chol", litR "tc" ] (lowerL "cholesterol: 5".toList) ∧
    parseTextForBiomarkers "cholesterol: 5" "2026-10-12" = [] :=
  ⟨c6_validation.1 "Total Cholesterol" 250,
   c6_validation.2.1 "Total Cholesterol" _ _ _ ['5'] (by decide) (by decide),
   c6_validation.2.2 "2026-10-12"⟩

/-- C9: a value can pass plausibility validation and still be classified Out of
range: Total Cholesterol 1000 is accepted by validation, classifies Out of
range, and the free-text extractor emits a reading carrying that status. -/
theorem c9_plausible_but_out_of_range :
    validateBiomarkerValue "Total Cholesterol" 1000 = true ∧
    getClinicalStatus "Total Cholesterol" 1000 = "Out of range" ∧
    ∀ today, parseTextForBiomarkers "cholesterol: 1000" today =
      [("Total Cholesterol", [⟨today, 1000, "", "Out of range"⟩])] :=
  ⟨by decide, by decide, fun _ => rfl⟩

/-- C1: for a text in which exactly one biomarker has a validated pattern
capture, free-text parsing yields exactly one reading for that biomarker,
holding that captured value, the extracted report date, unit and clinical
status. -/
theorem c1_single_pattern_parse (text today : String) (b : String) (ps : List Reg) (v : ℚ)
    (hmem : (b, ps) ∈ biomarkerPatterns)
    (hone : tryPatterns b ps (lowerL text.toList) = some v)
    (hrest : ∀ e ∈ biomarkerPatterns, e.1 ≠ b →
      tryPatterns e.1 e.2 (lowerL text.toList) = none) :
    parseTextForBiomarkers text today =
      [(b, [⟨extractDate text today, v, extractUnit text b, getClinicalStatus b v⟩])] := by
  have hnd : (biomarkerPatterns.map Prod.fst).Nodup := by decide
  exact filterMap_extract_single (lowerL text.toList)
    (fun b2 v2 =>
      (b2, [⟨extractDate text today, v2, extractUnit text b2, getClinicalStatus b2 v2⟩]))
    biomarkerPatterns b ps v hmem hnd hone hrest

/-- Witness for C1: the end-to-end scenario of the claim, one Total Cholesterol
reading of value 250 dated 2024-03-15 with status High. -/
theorem c1_single_pattern_parse_witness :
    parseTextForBiomarkers "Total Cholesterol: 250 mg/dL on 03/15/2024" "2026-10-12" =
      [("Total Cholesterol", [⟨"2024-03-15", 250, "mg/dL", "High"⟩])] := by
  have h := c1_single_pattern_parse "Total Cholesterol: 250 mg/dL on 03/15/2024" "2026-10-12"
    "Total Cholesterol"
    [ Reg.cat (.ncOpt (.cat (litR "total") wsP)) (litR "cholesterol"),
      seqR [litR "cholesterol", .opt (.chr ','), wsS, litR "total"],
      litR "chol", litR "tc" ] 250 (by decide) (by decide) (by decide)
  exact h.trans (by decide)

/-- C4 counterexample: merging two passes that both report Total Cholesterol is
not commutative: whichever pass is merged second overwrites the whole series,
and the two merge orders give different final maps even after
post-processing. -/
theorem c4_merge_counterexample :
    postProcessData (dictUpdate
        [("Total Cholesterol", [⟨"2024-01-01", 200, "", "Borderline"⟩])]
        [("Total Cholesterol", [⟨"2024-02-02", 180, "", "Normal"⟩])]) ≠
      postProcessData (dictUpdate
        [("Total Cholesterol", [⟨"2024-02-02", 180, "", "Normal"⟩])]
        [("Total Cholesterol", [⟨"2024-01-01", 200, "", "Borderline"⟩])]) := by
  decide

/-- C4 amended: the merge is idempotent — updating a map with itself changes
nothing, so aggregating the same candidate set twice yields the identical
series — but it is commutative only when the merged passes carry disjoint
biomarker sets; a biomarker present in both passes has its whole series
overwritten by the later pass, so merge order matters there. -/
theorem c4_merge_idempotent_and_disjoint_commutative :
    (∀ m : BioMap, (m.map Prod.fst).Nodup → dictUpdate m m = m) ∧
    (∀ m : BioMap, (m.map Prod.fst).Nodup →
      postProcessData (dictUpdate m m) = postProcessData m) ∧
    (∀ a b : BioMap,
      (∀ e ∈ a, alookup e.1 b = none) → (∀ e ∈ b, alookup e.1 a = none) →
      ∀ k, alookup k (dictUpdate a b) = alookup k (dictUpdate b a)) := by
  refine ⟨dictUpdate_self, ?_, ?_⟩
  · intro m h
    rw [dictUpdate_self m h]
  · intro a b ha hb k
    have hdisj : ∀ k2, alookup k2 a = none ∨ alookup k2 b = none := by
      intro k2
      cases hx : alookup k2 a with
      | none => exact Or.inl rfl
      | some v =>
        obtain ⟨e, he, hek⟩ := exists_mem_of_alookup_some hx
        exact Or.inr (hek ▸ ha e he)
    rw [dictUpdate_disjoint_append a b ha hb, dictUpdate_disjoint_append b a hb ha]
    exact alookup_append_comm_of_disjoint a b hdisj k

/-- Witness for C4: idempotence at a one-biomarker map, and order-independent
lookup when the two passes carry different biomarkers. -/
theorem c4_merge_witness :
    dictUpdate [("LDL", [⟨"2024-01-01", 100, "", "Normal"⟩])]
        [("LDL", [⟨"2024-01-01", 100, "", "Normal"⟩])] =
      [("LDL", [⟨"2024-01-01", 100, "", "Normal"⟩])] ∧
    alookup "LDL"
        (dictUpdate [("LDL", [⟨"2024-01-01", 100, "", "Normal"⟩])]
          [("HDL", [⟨"2024-01-01", 50, "", "Normal"⟩])]) =
      alookup "LDL"
        (dictUpdate [("HDL", [⟨"2024-01-01", 50, "", "Normal"⟩])]
          [("LDL", [⟨"2024-01-01", 100, "", "Normal"⟩])]) :=
  ⟨c4_merge_idempotent_and_disjoint_commutative.1 _ (by decide),
   c4_merge_idempotent_and_disjoint_commutative.2.2 _ _ (by decide) (by decide) "LDL"⟩

/-- C5 counterexample: the trend entry stores the percent change rounded to two
decimal places, so for the two-reading series with values 3 and 5 the stored
percent change differs from the exact value of the formula. -/
theorem c5_trend_counterexample :
    (mkTrend [⟨"2024-01-01", 3, "", "Normal"⟩,
      ⟨"2024-02-01", 5, "", "Normal"⟩]).percentChange ≠ ((5 : ℚ) - 3) / 3 * 100 := by
  with_unfolding_all decide

/-- C5 amended: the trend analyzer classifies stable exactly when the absolute
slope is below the fixed threshold, otherwise increasing exactly when the slope
is positive, otherwise decreasing; the percent change is computed as the
relative change of last against first times one hundred, defined as zero when
the first value is zero, and the trend entry stores it rounded to two decimal
places; series shorter than two readings produce no trend entry. -/
theorem c5_trend (m : BioMap) (hnd : (m.map Prod.fst).Nodup) (b : String)
    (vals : List Reading) (hmem : (b, vals) ∈ m) :
    (vals.length < 2 → alookup b (generateTrendAnalysis m) = none) ∧
    (2 ≤ vals.length → alookup b (generateTrendAnalysis m) = some (mkTrend vals)) ∧
    ((mkTrend vals).trendDirection =
      trendDirectionOf (lsqSlope ((List.insertionSort dLe vals).map (fun r => r.value)))) ∧
    (∀ sl : ℚ,
      (trendDirectionOf sl = "stable" ↔ |sl| < 0.1) ∧
      (trendDirectionOf sl = "increasing" ↔ ¬|sl| < 0.1 ∧ 0 < sl) ∧
      (trendDirectionOf sl = "decreasing" ↔ ¬|sl| < 0.1 ∧ ¬0 < sl)) ∧
    (∀ lastV : ℚ, percentChangeOf 0 lastV = 0) ∧
    (∀ firstV lastV : ℚ, firstV ≠ 0 →
      percentChangeOf firstV lastV = (lastV - firstV) / firstV * 100) ∧
    ((mkTrend vals).percentChange = roundTo 2 (percentChangeOf
      (((List.insertionSort dLe vals).map (fun r => r.value)).headD 0)
      (((List.insertionSort dLe vals).map (fun r => r.value)).getLastD 0))) := by
  refine ⟨?_, ?_, rfl, ?_, ?_, ?_, rfl⟩
  · intro h
    rw [alookup_trend m hnd b vals hmem]
    simp only [if_neg (by omega : ¬ 1 < vals.length)]
  · intro h
    rw [alookup_trend m hnd b vals hmem]
    simp only [if_pos (by omega : 1 < vals.length)]
  · intro sl
    refine ⟨?_, ?_, ?_⟩ <;> unfold trendDirectionOf <;> rw [absQ_eq_abs] <;>
      by_cases h1 : |sl| < 0.1 <;> by_cases h2 : 0 < sl <;> simp [h1, h2]
  · intro lastV
    simp [percentChangeOf]
  · intro firstV lastV h
    simp [percentChangeOf, h]

/-- Witness for C5: the two-reading series from zero to five has a trend entry
with percent change zero and direction increasing, and a one-reading series has
no trend entry. -/
theorem c5_trend_witness :
    alookup "Glucose" (generateTrendAnalysis
        [("Glucose", [⟨"2024-01-01", 0, "", "Low"⟩, ⟨"2024-02-01", 5, "", "Low"⟩])]) =
      some (mkTrend [⟨"2024-01-01", 0, "", "Low"⟩, ⟨"2024-02-01", 5, "", "Low"⟩]) ∧
    (mkTrend [⟨"2024-01-01", 0, "", "Low"⟩, ⟨"2024-02-01", 5, "", "Low"⟩]).percentChange = 0 ∧
    (mkTrend [⟨"2024-01-01", 0, "", "Low"⟩,
      ⟨"2024-02-01", 5, "", "Low"⟩]).trendDirection = "increasing" ∧
    alookup "TSH" (generateTrendAnalysis [("TSH", [⟨"2024-01-01", 1, "", "Normal"⟩])]) = none := by
  refine ⟨?_, by with_unfolding_all decide, by with_unfolding_all decide, ?_⟩
  · exact (c5_trend [("Glucose", [⟨"2024-01-01", 0, "", "Low"⟩, ⟨"2024-02-01", 5, "", "Low"⟩])]
      (by decide) "Glucose" [⟨"2024-01-01", 0, "", "Low"⟩, ⟨"2024-02-01", 5, "", "Low"⟩]
      (by decide)).2.1 (by decide)
  · exact (c5_trend [("TSH", [⟨"2024-01-01", 1, "", "Normal"⟩])]
      (by decide) "TSH" [⟨"2024-01-01", 1, "", "Normal"⟩] (by decide)).1 (by decide)

/-- C7 counterexample: on a text whose first date-pattern match fails every
format, the extractor does not return the current date but proceeds to the next
date pattern, which parses a different date. -/
theorem c7_date_counterexample :
    extractDate "99/99/9999 2024-03-15" "2026-10-12" = "2024-03-15" ∧
    extractDate "99/99/9999 2024-03-15" "2026-10-12" ≠ "2026-10-12" :=
  ⟨rfl, by decide⟩

/-- C7 amended: the date normalizer tries the date patterns in order and, for a
matching pattern, the fixed format list on that pattern's first match; a parse
success returns the ISO form, but a match failing every format falls through to
the next date pattern rather than to the current date; the current date is
returned only when every pattern either fails to match or fails to parse. -/
theorem c7_date_fallthrough :
    (∀ (text today : String), (∀ p ∈ datePatterns, findMatch p text.toList = none) →
      extractDate text today = today) ∧
    (∀ (p : Reg) (rest : List Reg) (text : List Char) (today : String) (ds : List Char),
      findMatch p text = some ds → tryFormats ds = none →
      extractDateLoop (p :: rest) text today = extractDateLoop rest text today) ∧
    (∀ (p : Reg) (rest : List Reg) (text : List Char) (today iso : String) (ds : List Char),
      findMatch p text = some ds → tryFormats ds = some iso →
      extractDateLoop (p :: rest) text today = iso) ∧
    (∀ today, extractDate "99/99/9999 2024-03-15" today = "2024-03-15") := by
  refine ⟨?_, ?_, ?_, fun _ => rfl⟩
  · intro text today hall
    have haux : ∀ L : List Reg, (∀ p ∈ L, findMatch p text.toList = none) →
        extractDateLoop L text.toList today = today := by
      intro L
      induction L with
      | nil => intro _; rfl
      | cons p t ih =>
        intro hL
        simp only [extractDateLoop, hL p (List.mem_cons_self p t)]
        exact ih (fun q hq => hL q (List.mem_cons_of_mem _ hq))
    exact haux datePatterns hall
  · intro p rest text today ds h1 h2
    simp only [extractDateLoop, h1, h2]
  · intro p rest text today iso ds h1 h2
    simp only [extractDateLoop, h1, h2]

/-- Witness for C7: the fallback at a dateless text, the fall-through of the
first pattern on an unparseable match, and a parse success on the first
pattern. -/
theorem c7_date_fallthrough_witness :
    extractDate "no date here" "2026-10-12" = "2026-10-12" ∧
    extractDateLoop
        [seqR [.rep .digit 1 2, .cls sepCl, .rep .digit 1 2, .cls sepCl, .rep .digit 2 4]]
        "99/99/9999".toList "2026-10-12" = "2026-10-12" ∧
    extractDateLoop
        [seqR [.rep .digit 1 2, .cls sepCl, .rep .digit 1 2, .cls sepCl, .rep .digit 2 4]]
        "03/15/2024".toList "2026-10-12" = "2024-03-15" := by
  refine ⟨?_, ?_, ?_⟩
  · exact c7_date_fallthrough.1 "no date here" "2026-10-12" (by decide)
  · exact (c7_date_fallthrough.2.1 _ [] _ "2026-10-12" "99/99/9999".toList
      (by decide) (by decide)).trans rfl
  · exact c7_date_fallthrough.2.2.1 _ [] _ "2026-10-12" "2024-03-15" "03/15/2024".toList
      (by decide) (by decide)

/-- C8: every series of a post-processed biomarker map is ascending by date and
contains no two readings with the same date and value pair. -/
theorem c8_series_invariants (m : BioMap) (b : String) (series : List Reading)
    (h : alookup b (postProcessData m) = some series) :
    (∀ i (hi : i + 1 < series.length),
      dLe (series.get ⟨i, by omega⟩) (series.get ⟨i + 1, hi⟩)) ∧
    series.Pairwise (fun x y => keyDV x ≠ keyDV y) := by
  rw [show postProcessData m = m.map (fun e => (e.1, postProcessSeries e.2)) from rfl,
    alookup_map_value] at h
  obtain ⟨vals, _, hs⟩ := Option.map_eq_some'.mp h
  rw [← hs]
  exact postProcessSeries_invariants vals

/-- Witness for C8: a three-reading series with one exact duplicate and
descending input order comes out sorted and duplicate-free. -/
theorem c8_series_invariants_witness :
    alookup "LDL" (postProcessData
        [("LDL", [⟨"2024-03-01", 150, "", "Borderline"⟩, ⟨"2024-02-01", 145, "", "Borderline"⟩,
          ⟨"2024-03-01", 150, "", "Borderline"⟩])]) =
      some (postProcessSeries [⟨"2024-03-01", 150, "", "Borderline"⟩,
        ⟨"2024-02-01", 145, "", "Borderline"⟩, ⟨"2024-03-01", 150, "", "Borderline"⟩]) ∧
    ((∀ i (hi : i + 1 < (postProcessSeries [⟨"2024-03-01", 150, "", "Borderline"⟩,
          ⟨"2024-02-01", 145, "", "Borderline"⟩,
          ⟨"2024-03-01", 150, "", "Borderline"⟩]).length),
        dLe ((postProcessSeries [⟨"2024-03-01", 150, "", "Borderline"⟩,
          ⟨"2024-02-01", 145, "", "Borderline"⟩,
          ⟨"2024-03-01", 150, "", "Borderline"⟩]).get ⟨i, by omega⟩)
          ((postProcessSeries [⟨"2024-03-01", 150, "", "Borderline"⟩,
          ⟨"2024-02-01", 145, "", "Borderline"⟩,
          ⟨"2024-03-01", 150, "", "Borderline"⟩]).get ⟨i + 1, hi⟩)) ∧
      (postProcessSeries [⟨"2024-03-01", 150, "", "Borderline"⟩,
        ⟨"2024-02-01", 145, "", "Borderline"⟩,
        ⟨"2024-03-01", 150, "", "Borderline"⟩]).Pairwise (fun x y => keyDV x ≠ keyDV y)) :=
  ⟨rfl, c8_series_invariants
    [("LDL", [⟨"2024-03-01", 150, "", "Borderline"⟩, ⟨"2024-02-01", 145, "", "Borderline"⟩,
      ⟨"2024-03-01", 150, "", "Borderline"⟩])] "LDL" _ rfl⟩

/-- C10: the simple extractor applies no plausibility validation and no
classification: the text with the implausible cholesterol value 5 yields a
Total Cholesterol reading of 5 with no status, while the advanced validator
rejects that same value. -/
theorem c10_simple_extractor_no_validation :
    (∀ today, Simple.parseTextForBiomarkers "cholesterol: 5" today =
      [("Total Cholesterol", [⟨today, 5⟩])]) ∧
    validateBiomarkerValue "Total Cholesterol" 5 = false :=
  ⟨fun _ => rfl, by decide⟩

end EcoTown
